import Mathlib

/-!
Shallow embedding of the Daxko bulk-data fetcher (firstcredit_daxko_.py).

The program performs four kinds of HTTP calls (authentication POST, listing
GET, download-URL POST, file-fetch GET).  Each call is modelled by handing
the embedded function the outcome of its request: either a response
(status code plus the already-parsed piece of the JSON body that the code
reads) or a transport-level exception raised by the HTTP client.  The
orchestrator is modelled as a function of an environment assigning an
outcome to every request, threading a trace of issued requests and a local
file system through the run; Python exceptions are modelled with Except.
-/

/-- Exceptions the embedded code can raise: KeyError from dict subscripting
and a transport-level error from the HTTP client. -/
inductive PyExn
  | keyError (key : String)
  | connectionError (msg : String)
  deriving DecidableEq

/-- A record of the listing results array: a JSON object whose two fields
read by the code may each be absent. -/
structure FileRecord where
  name? : Option String
  lastModifiedAtUtc? : Option String
  deriving DecidableEq

/-- Outcome of one HTTP request: a response (status code and parsed body
piece) or a transport-level exception raised by the client. -/
inductive NetResult (β : Type)
  | resp (status : Nat) (body : β)
  | exn (e : PyExn)
  deriving DecidableEq

/-- Python dict subscripting: raises KeyError when the key is absent. -/
def dictGet (key : String) : Option String → Except PyExn String
  | some v => Except.ok v
  | none => Except.error (PyExn.keyError key)

/-- Python truthiness of an optional string: None and the empty string are
falsy. -/
def truthyStr : Option String → Bool
  | none => false
  | some s => if s = "" then false else true

/-- Constant FILES_URL of the source (line 19). -/
def FILES_URL : String := "https://api.partners.daxko.com/api/v1/bulk-data/drive/files"

/-- Constant DOWNLOAD_URL_BASE of the source (line 20). -/
def DOWNLOAD_URL_BASE : String := "https://api.partners.daxko.com/api/v1/bulk-data/drive/download"

/-- Constant PREFIX of the source (line 21). -/
def PREFIX : String := "FirstCreditPaymentByItem"

/-- authenticate (lines 23-43): on HTTP 200 return the access_token field
of the JSON body, absent field yielding None; on any other status return
None.  The body argument is the access_token field of the parsed JSON. -/
def authenticate (r : NetResult (Option String)) : Except PyExn (Option String) :=
  match r with
  | NetResult.exn e => Except.error e
  | NetResult.resp status body =>
    if status = 200 then Except.ok body else Except.ok none

/-- The single GET request issued by the listing function (lines 50-53):
URL, bearer token, and the three query parameters. -/
structure ListRequest where
  url : String
  token : String
  pageSize : Nat
  pfx : String
  startAfterFile : String
  deriving DecidableEq

/-- The request the listing function builds from its arguments: the fixed
files URL with pageSize 100 (line 51). -/
def listRequest (access_token pfx start_after_file : String) : ListRequest :=
  { url := FILES_URL, token := access_token, pageSize := 100,
    pfx := pfx, startAfterFile := start_after_file }

/-- The log line of one record (line 62): both subscripts are evaluated,
raising KeyError on a missing key. -/
def logFileLine (f : FileRecord) : Except PyExn Unit :=
  match dictGet "name" f.name? with
  | Except.error e => Except.error e
  | Except.ok _ =>
    match dictGet "lastModifiedAtUtc" f.lastModifiedAtUtc? with
    | Except.error e => Except.error e
    | Except.ok _ => Except.ok ()

/-- The logging loop over the listed records (lines 61-62). -/
def logFiles : List FileRecord → Except PyExn Unit
  | [] => Except.ok ()
  | f :: rest =>
    match logFileLine f with
    | Except.error e => Except.error e
    | Except.ok _ => logFiles rest

/-- list_files_in_prefix (lines 45-70).  The body argument of the network
outcome is the results field of the JSON body (None when absent, matching
the getD default of line 56).  Returns the Python result (or raised
exception) together with the list of requests issued, which is one request
by construction, as in the source. -/
def list_files_in_prefix (access_token pfx start_after_file : String)
    (net : ListRequest → NetResult (Option (List FileRecord))) :
    Except PyExn (List FileRecord) × List ListRequest :=
  let req := listRequest access_token pfx start_after_file
  let res : Except PyExn (List FileRecord) :=
    match net req with
    | NetResult.exn e => Except.error e
    | NetResult.resp status body =>
      if status = 200 then
        let files := body.getD []
        if files = [] then Except.ok []
        else
          match logFiles files with
          | Except.error e => Except.error e
          | Except.ok _ => Except.ok files
      else Except.ok []
  (res, [req])

/-- generate_download_url (lines 72-85): on HTTP 200 return the downloadUrl
field of the JSON body (None when absent); otherwise return None. -/
def generate_download_url (r : NetResult (Option String)) : Except PyExn (Option String) :=
  match r with
  | NetResult.exn e => Except.error e
  | NetResult.resp status body =>
    if status = 200 then Except.ok body else Except.ok none

/-- Raw bytes of a response body or of a local file. -/
abbrev Bytes := List Nat

/-- The local file system: an optional byte content per path. -/
abbrev FS := String → Option Bytes

/-- iter_content with chunk_size 8192 (line 96): successive chunks of at
most 8192 bytes. -/
def chunks8192 (l : Bytes) : List Bytes :=
  if h : l = [] then []
  else l.take 8192 :: chunks8192 (l.drop 8192)
termination_by l.length
decreasing_by
  have hl : 0 < l.length := List.length_pos.mpr h
  have h2 : (0 : Nat) < 8192 := by norm_num
  simpa using Nat.sub_lt hl h2

/-- The write loop of lines 95-97: the chunks written in order to a file
opened for (truncating) binary write. -/
def concatBytes : List Bytes → Bytes
  | [] => []
  | c :: cs => c ++ concatBytes cs

/-- download_file (lines 87-100): on HTTP 200 write the body to the local
path in 8192-byte chunks, overwriting any existing file; on any other
status leave the file system untouched and raise nothing. -/
def download_file (r : NetResult Bytes) (local_filename : String) (fs : FS) :
    Except PyExn FS :=
  match r with
  | NetResult.exn e => Except.error e
  | NetResult.resp status body =>
    if status = 200 then
      Except.ok (fun p => if p = local_filename
        then some (concatBytes (chunks8192 body)) else fs p)
    else Except.ok fs

/-- Line 130: the local file name is the last segment of the logical file
name split on the slash character. -/
def localFilename (file_name : String) : String :=
  (file_name.splitOn "/").getLastD ""

/-- One request issued during a run, as recorded in the trace. -/
inductive Event
  | authCall
  | listCall (req : ListRequest)
  | resolveCall (file_name : String)
  | fetchCall (url : String)
  deriving DecidableEq

/-- The environment of a run: the outcome of every possible request. -/
structure Env where
  authR : NetResult (Option String)
  listR : ListRequest → NetResult (Option (List FileRecord))
  resolveR : String → NetResult (Option String)
  fetchR : String → NetResult Bytes

/-- State threaded through a run: the trace of issued requests and the
local file system. -/
structure St where
  trace : List Event
  fs : FS

/-- Record one issued request in the trace. -/
def emit (e : Event) (s : St) : St :=
  { s with trace := s.trace ++ [e] }

/-- The per-file body of the inner loop of main (lines 122-133): read the
name field (KeyError if absent), resolve the download URL, and if the URL
is truthy fetch it to the basename-derived local path; otherwise skip. -/
def processFile (env : Env) (access_token : String) (f : FileRecord) (s : St) :
    Except PyExn Unit × St :=
  match dictGet "name" f.name? with
  | Except.error e => (Except.error e, s)
  | Except.ok file_name =>
    let s1 := emit (Event.resolveCall file_name) s
    match generate_download_url (env.resolveR file_name) with
    | Except.error e => (Except.error e, s1)
    | Except.ok urlOpt =>
      match urlOpt with
      | none => (Except.ok (), s1)
      | some url =>
        if url = "" then (Except.ok (), s1)
        else
          let s2 := emit (Event.fetchCall url) s1
          match download_file (env.fetchR url) (localFilename file_name) s2.fs with
          | Except.error e => (Except.error e, s2)
          | Except.ok fs2 => (Except.ok (), { s2 with fs := fs2 })

/-- The inner loop of main over the listed files (line 122): stops at the
first raised exception. -/
def processFiles (env : Env) (access_token : String) :
    List FileRecord → St → Except PyExn Unit × St
  | [], s => (Except.ok (), s)
  | f :: rest, s =>
    match processFile env access_token f s with
    | (Except.error e, s1) => (Except.error e, s1)
    | (Except.ok _, s1) => processFiles env access_token rest s1

/-- Line 117: the cursor key built for a date. -/
def startAfterFor (d : String) : String :=
  PREFIX ++ "/" ++ PREFIX ++ "-" ++ d

/-- The per-date body of the outer loop of main (lines 115-133). -/
def processDate (env : Env) (access_token : String) (date_str : String) (s : St) :
    Except PyExn Unit × St :=
  let pair := list_files_in_prefix access_token PREFIX (startAfterFor date_str) env.listR
  let s1 : St := { s with trace := s.trace ++ pair.2.map Event.listCall }
  match pair.1 with
  | Except.error e => (Except.error e, s1)
  | Except.ok files => processFiles env access_token files s1

/-- The outer loop of main over the target dates (line 115). -/
def processDates (env : Env) (access_token : String) :
    List String → St → Except PyExn Unit × St
  | [], s => (Except.ok (), s)
  | d :: ds, s =>
    match processDate env access_token d s with
    | (Except.error e, s1) => (Except.error e, s1)
    | (Except.ok _, s1) => processDates env access_token ds s1

/-- Line 113: the hardcoded target dates. -/
def target_dates : List String := ["08-10-2024", "08-11-2024", "08-12-2024"]

/-- The body of the try block of main (lines 110-133): authenticate, and
when the token is truthy process every target date. -/
def mainBody (env : Env) (s : St) : Except PyExn Unit × St :=
  let s1 := emit Event.authCall s
  match authenticate env.authR with
  | Except.error e => (Except.error e, s1)
  | Except.ok tokOpt =>
    match tokOpt with
    | some access_token =>
      if access_token = "" then (Except.ok (), s1)
      else processDates env access_token target_dates s1
    | none => (Except.ok (), s1)

/-- How main returned: the try block completed, or the top-level except
clause caught and logged an exception. -/
inductive MainResult
  | completed (s : St)
  | caughtError (e : PyExn) (s : St)

/-- main (lines 102-137), named mainRun since the name main is reserved:
run the body inside the single top-level try/except; a raised exception is
caught and recorded, never re-raised. -/
def mainRun (env : Env) (fs0 : FS) : Except PyExn MainResult :=
  match mainBody env { trace := [], fs := fs0 } with
  | (Except.ok _, s) => Except.ok (MainResult.completed s)
  | (Except.error e, s) => Except.ok (MainResult.caughtError e s)

/-- A record carrying both fields the code reads. -/
def wellFormedRec (f : FileRecord) : Prop :=
  f.name?.isSome = true ∧ f.lastModifiedAtUtc?.isSome = true

/-- The listing requests appearing in a trace, in order. -/
def listCallsOf : List Event → List ListRequest
  | [] => []
  | Event.listCall r :: t => r :: listCallsOf t
  | _ :: t => listCallsOf t

/-- The number of fetch requests appearing in a trace. -/
def fetchCount : List Event → Nat
  | [] => 0
  | Event.fetchCall _ :: t => 1 + fetchCount t
  | _ :: t => fetchCount t

/-- Whether URL resolution for a record yields a truthy download URL in an
environment. -/
def resolveTruthy (env : Env) (f : FileRecord) : Bool :=
  match f.name? with
  | none => false
  | some n =>
    match generate_download_url (env.resolveR n) with
    | Except.ok r => truthyStr r
    | Except.error _ => false

/-- The requests one record contributes to the trace in an exception-free
run: its resolve call, then its fetch call when resolution was truthy. -/
def fileEvents (env : Env) (f : FileRecord) : List Event :=
  match f.name? with
  | none => []
  | some n =>
    Event.resolveCall n ::
      (match generate_download_url (env.resolveR n) with
       | Except.ok (some url) => if url = "" then [] else [Event.fetchCall url]
       | _ => [])

/-- The events contributed by a list of records. -/
def flatEvents (env : Env) : List FileRecord → List Event
  | [] => []
  | f :: rest => fileEvents env f ++ flatEvents env rest

/-- The events contributed by a list of dates, given the files listed for
each date. -/
def datesEvents (env : Env) (tok : String) (filesOf : String → List FileRecord) :
    List String → List Event
  | [] => []
  | d :: ds =>
    Event.listCall (listRequest tok PREFIX (startAfterFor d)) ::
      (flatEvents env (filesOf d) ++ datesEvents env tok filesOf ds)

/-- The number of records of a list whose URL resolution is truthy. -/
def countResolved (env : Env) : List FileRecord → Nat
  | [] => 0
  | f :: rest => (if resolveTruthy env f then 1 else 0) + countResolved env rest

/-- The number of truthy resolutions over a list of dates. -/
def countResolvedDates (env : Env) (filesOf : String → List FileRecord) :
    List String → Nat
  | [] => 0
  | d :: ds => countResolved env (filesOf d) + countResolvedDates env filesOf ds

/-- An empty local file system. -/
def fsEmpty : FS := fun _ => none

/-- Environment whose authentication request is answered with HTTP 401. -/
def envC1 : Env :=
  { authR := NetResult.resp 401 none,
    listR := fun _ => NetResult.resp 200 none,
    resolveR := fun _ => NetResult.resp 200 none,
    fetchR := fun _ => NetResult.resp 200 [] }

/-- A listing transport that raises a connection error. -/
def netExnC2 : ListRequest → NetResult (Option (List FileRecord)) :=
  fun _ => NetResult.exn (PyExn.connectionError "connection refused")

/-- A listing transport answering HTTP 500. -/
def netC2a : ListRequest → NetResult (Option (List FileRecord)) :=
  fun _ => NetResult.resp 500 none

/-- A listing transport answering HTTP 200 with a body lacking the results
field. -/
def netC10 : ListRequest → NetResult (Option (List FileRecord)) :=
  fun _ => NetResult.resp 200 none

/-- A listing transport answering HTTP 200 with an empty results array. -/
def netC10b : ListRequest → NetResult (Option (List FileRecord)) :=
  fun _ => NetResult.resp 200 (some [])

deriving instance DecidableEq for Except

instance (f : FileRecord) : Decidable (wellFormedRec f) := by
  unfold wellFormedRec
  infer_instance

/-- A well-formed record of the first target date. -/
def recA : FileRecord :=
  { name? := some "FirstCreditPaymentByItem/FirstCreditPaymentByItem-08-10-2024-part1.csv",
    lastModifiedAtUtc? := some "2024-08-10T12:00:00Z" }

/-- A second well-formed record of the first target date. -/
def recB : FileRecord :=
  { name? := some "FirstCreditPaymentByItem/FirstCreditPaymentByItem-08-10-2024-part2.csv",
    lastModifiedAtUtc? := some "2024-08-10T12:05:00Z" }

/-- A listing transport answering HTTP 200 with two well-formed records. -/
def netC3 : ListRequest → NetResult (Option (List FileRecord)) :=
  fun _ => NetResult.resp 200 (some [recA, recB])

/-- A record lacking the name field. -/
def badRec : FileRecord :=
  { name? := none, lastModifiedAtUtc? := some "2024-08-10T12:00:00Z" }

/-- Environment whose first listing answers with a malformed record. -/
def envC9 : Env :=
  { authR := NetResult.resp 200 (some "tok"),
    listR := fun _ => NetResult.resp 200 (some [badRec]),
    resolveR := fun _ => NetResult.resp 200 none,
    fetchR := fun _ => NetResult.resp 200 [] }

/-- Environment whose URL resolution answers with HTTP 404. -/
def envC4 : Env :=
  { authR := NetResult.resp 200 (some "tok"),
    listR := fun _ => NetResult.resp 200 (some []),
    resolveR := fun _ => NetResult.resp 404 none,
    fetchR := fun _ => NetResult.resp 200 [] }

/-- The files listed per date in the end-to-end scenario: two for the
first target date, none for the others. -/
def filesOfC7 : String → List FileRecord :=
  fun d => if d = "08-10-2024" then [recA, recB] else []

/-- Environment of the end-to-end scenario: authentication succeeds, the
first date lists two records, the others none, every resolution yields a
signed URL and every fetch answers HTTP 200. -/
def envC7 : Env :=
  { authR := NetResult.resp 200 (some "tok"),
    listR := fun req => if req.startAfterFile = startAfterFor "08-10-2024"
      then NetResult.resp 200 (some [recA, recB]) else NetResult.resp 200 (some []),
    resolveR := fun n => NetResult.resp 200 (some ("https://signed.example/" ++ n)),
    fetchR := fun _ => NetResult.resp 200 [7, 7] }

/-- Helper: a successful listing with well-formed records returns exactly
those records together with the single request it issued. -/
theorem logFileLine_ok_of_wf (f : FileRecord) (h : wellFormedRec f) :
    logFileLine f = Except.ok () := by
  obtain ⟨n, hn⟩ := Option.isSome_iff_exists.mp h.1
  obtain ⟨m, hm⟩ := Option.isSome_iff_exists.mp h.2
  simp [logFileLine, dictGet, hn, hm]

/-- Helper: the logging loop succeeds on well-formed records. -/
theorem logFiles_ok_of_wf :
    ∀ (files : List FileRecord), (∀ f ∈ files, wellFormedRec f) →
      logFiles files = Except.ok () := by
  intro files
  induction files with
  | nil => intro _; rfl
  | cons f rest ih =>
    intro h
    have hf := logFileLine_ok_of_wf f (h f (by simp))
    simp only [logFiles, hf]
    exact ih (fun g hg => h g (by simp [hg]))

/-- Helper: characterization of a 200 listing with well-formed records. -/
theorem list_ok_of (tok p c : String)
    (net : ListRequest → NetResult (Option (List FileRecord)))
    (files : List FileRecord)
    (hn : net (listRequest tok p c) = NetResult.resp 200 (some files))
    (hwf : ∀ f ∈ files, wellFormedRec f) :
    list_files_in_prefix tok p c net = (Except.ok files, [listRequest tok p c]) := by
  by_cases hf : files = []
  · subst hf
    simp [ list_files_in_prefix, hn]
  · simp [ list_files_in_prefix, hn, hf, logFiles_ok_of_wf files hwf]

/-- C1: on an HTTP 200 authentication response, authenticate returns the
access_token field of the JSON body; on any non-200 status it returns
None, and in that case the orchestrator halts after the authentication
call: the final trace is exactly the one authentication request, so no
listing, resolution, or fetch request is ever issued in that run. -/
theorem c1_auth_gate :
    (∀ b : Option String, authenticate (NetResult.resp 200 b) = Except.ok b) ∧
    (∀ (st : Nat) (b : Option String), st ≠ 200 →
      authenticate (NetResult.resp st b) = Except.ok none) ∧
    (∀ (env : Env) (fs0 : FS) (st : Nat) (b : Option String),
      env.authR = NetResult.resp st b → st ≠ 200 →
      mainRun env fs0
        = Except.ok (MainResult.completed { trace := [Event.authCall], fs := fs0 })) := by
  refine ⟨fun b => rfl, fun st b h => by simp [authenticate, h], ?_⟩
  intro env fs0 st b hA h
  simp [mainRun, mainBody, emit, authenticate, hA, h]

/-- Witness for C1 at status 401. -/
theorem c1_auth_gate_witness :
    authenticate (NetResult.resp 200 (some "tok")) = Except.ok (some "tok") ∧
    authenticate (NetResult.resp 401 none) = Except.ok none ∧
    mainRun envC1 fsEmpty
      = Except.ok (MainResult.completed { trace := [Event.authCall], fs := fsEmpty }) :=
  ⟨c1_auth_gate.1 (some "tok"),
   c1_auth_gate.2.1 401 none (by decide),
   c1_auth_gate.2.2 envC1 fsEmpty 401 none rfl (by decide)⟩

/-- C2 counterexample: a listing call that fails at the transport level
does not yield the empty sequence; the raised connection error propagates
out of the listing function. -/
theorem c2_counterexample :
    ( list_files_in_prefix "tok" "FirstCreditPaymentByItem" "cursor" netExnC2).1
        = Except.error (PyExn.connectionError "connection refused") ∧
    ¬ ( list_files_in_prefix "tok" "FirstCreditPaymentByItem" "cursor" netExnC2).1
        = Except.ok [] := by
  refine ⟨rfl, ?_⟩
  intro h
  simp [ list_files_in_prefix, netExnC2] at h

/-- C2 amended: for a listing call answered with a non-200 status the
function returns the empty sequence, indistinguishable from zero files;
a transport-level failure instead raises, the exception propagating out of
the function. -/
theorem c2_amended :
    (∀ (tok p c : String) (net : ListRequest → NetResult (Option (List FileRecord)))
      (st : Nat) (b : Option (List FileRecord)),
      net (listRequest tok p c) = NetResult.resp st b → st ≠ 200 →
      ( list_files_in_prefix tok p c net).1 = Except.ok []) ∧
    (∀ (tok p c : String) (net : ListRequest → NetResult (Option (List FileRecord)))
      (e : PyExn),
      net (listRequest tok p c) = NetResult.exn e →
      ( list_files_in_prefix tok p c net).1 = Except.error e) := by
  constructor
  · intro tok p c net st b hn h
    simp [ list_files_in_prefix, hn, h]
  · intro tok p c net e hn
    simp [ list_files_in_prefix, hn]

/-- Witness for C2 amended: HTTP 500 yields the empty list; a connection
error is raised. -/
theorem c2_amended_witness :
    ( list_files_in_prefix "tok" "p" "c" netC2a).1 = Except.ok [] ∧
    ( list_files_in_prefix "tok" "p" "c" netExnC2).1
      = Except.error (PyExn.connectionError "connection refused") :=
  ⟨c2_amended.1 "tok" "p" "c" netC2a 500 none rfl (by decide),
   c2_amended.2 "tok" "p" "c" netExnC2 (PyExn.connectionError "connection refused") rfl⟩

/-- C5: on a non-200 fetch response, download_file writes nothing: the
file system is returned exactly as it was, and no exception is raised. -/
theorem c5_download_non200 :
    ∀ (st : Nat) (body : Bytes) (ln : String) (fs : FS),
      st ≠ 200 →
      download_file (NetResult.resp st body) ln fs = Except.ok fs := by
  intro st body ln fs h
  simp [download_file, h]

/-- Witness for C5 at status 404. -/
theorem c5_download_non200_witness :
    download_file (NetResult.resp 404 [1, 2, 3]) "out.csv" fsEmpty = Except.ok fsEmpty :=
  c5_download_non200 404 [1, 2, 3] "out.csv" fsEmpty (by decide)

/-- C8: for every environment and initial file system, mainRun returns
normally: it either completes or records the exception caught by the
single top-level handler; no exception value ever escapes. -/
theorem c8_top_level_catch :
    ∀ (env : Env) (fs0 : FS),
      (∃ s, mainRun env fs0 = Except.ok (MainResult.completed s)) ∨
      (∃ e s, mainRun env fs0 = Except.ok (MainResult.caughtError e s)) := by
  intro env fs0
  cases h : mainBody env { trace := [], fs := fs0 } with
  | mk r s =>
    cases r with
    | ok u => exact Or.inl ⟨s, by simp [mainRun, h]⟩
    | error e => exact Or.inr ⟨e, s, by simp [mainRun, h]⟩

/-- C10: a 200 listing response whose JSON body lacks the results field
yields the empty list, the very outcome of a 200 response with an empty
results array. -/
theorem c10_missing_results_field :
    ∀ (tok p c : String) (net net2 : ListRequest → NetResult (Option (List FileRecord))),
      net (listRequest tok p c) = NetResult.resp 200 none →
      net2 (listRequest tok p c) = NetResult.resp 200 (some []) →
      list_files_in_prefix tok p c net = (Except.ok [], [listRequest tok p c]) ∧
      list_files_in_prefix tok p c net2 = (Except.ok [], [listRequest tok p c]) := by
  intro tok p c net net2 h h2
  constructor
  · simp [ list_files_in_prefix, h]
  · simp [ list_files_in_prefix, h2]

/-- Witness for C10. -/
theorem c10_missing_results_field_witness :
    list_files_in_prefix "tok" "p" "c" netC10 = (Except.ok [], [listRequest "tok" "p" "c"]) ∧
    list_files_in_prefix "tok" "p" "c" netC10b = (Except.ok [], [listRequest "tok" "p" "c"]) :=
  c10_missing_results_field "tok" "p" "c" netC10 netC10b rfl rfl

/-- C3: a 200 listing response carrying N well-formed records, N at most
100, makes the listing function return exactly those records in server
order, the empty sequence rather than an error for N zero, via a single
GET request whose page size is the fixed 100, with no further page ever
requested. -/
theorem c3_listing_success :
    ∀ (tok p c : String) (net : ListRequest → NetResult (Option (List FileRecord)))
      (files : List FileRecord),
      net (listRequest tok p c) = NetResult.resp 200 (some files) →
      files.length ≤ 100 →
      (∀ f ∈ files, wellFormedRec f) →
      list_files_in_prefix tok p c net = (Except.ok files, [listRequest tok p c]) ∧
      (listRequest tok p c).pageSize = 100 := by
  intro tok p c net files hn _ hwf
  exact ⟨list_ok_of tok p c net files hn hwf, rfl⟩

/-- Witness for C3 at two records and at zero records. -/
theorem c3_listing_success_witness :
    ( list_files_in_prefix "tok" PREFIX (startAfterFor "08-10-2024") netC3
        = (Except.ok [recA, recB], [listRequest "tok" PREFIX (startAfterFor "08-10-2024")]) ∧
      (listRequest "tok" PREFIX (startAfterFor "08-10-2024")).pageSize = 100) ∧
    ( list_files_in_prefix "tok" PREFIX (startAfterFor "08-11-2024") netC10b
        = (Except.ok [], [listRequest "tok" PREFIX (startAfterFor "08-11-2024")]) ∧
      (listRequest "tok" PREFIX (startAfterFor "08-11-2024")).pageSize = 100) :=
  ⟨c3_listing_success "tok" PREFIX (startAfterFor "08-10-2024") netC3 [recA, recB]
      rfl (by decide) (by decide),
   c3_listing_success "tok" PREFIX (startAfterFor "08-11-2024") netC10b []
      rfl (by decide) (by decide)⟩

/-- C4: for a record whose URL resolution yields no truthy URL, the
per-file step emits only the resolution request, never a fetch request,
returns without exception, leaves the file system untouched, and the loop
continues with the remaining records. -/
theorem c4_skip_on_resolve_failure :
    ∀ (env : Env) (tok n : String) (m : Option String) (rest : List FileRecord)
      (s : St) (r : Option String),
      generate_download_url (env.resolveR n) = Except.ok r →
      truthyStr r = false →
      processFile env tok { name? := some n, lastModifiedAtUtc? := m } s
          = (Except.ok (), emit (Event.resolveCall n) s) ∧
      processFiles env tok ({ name? := some n, lastModifiedAtUtc? := m } :: rest) s
          = processFiles env tok rest (emit (Event.resolveCall n) s) := by
  intro env tok n m rest s r hr htr
  have h1 : processFile env tok { name? := some n, lastModifiedAtUtc? := m } s
      = (Except.ok (), emit (Event.resolveCall n) s) := by
    cases r with
    | none => simp [processFile, dictGet, hr]
    | some url =>
      have hu : url = "" := by
        by_contra hne
        simp [truthyStr, hne] at htr
      subst hu
      simp [processFile, dictGet, hr]
  exact ⟨h1, by simp [processFiles, h1]⟩

/-- Witness for C4: a 404 resolution response makes the per-file step skip
the fetch. -/
theorem c4_skip_on_resolve_failure_witness :
    processFile envC4 "tok" { name? := some "A/f.csv", lastModifiedAtUtc? := some "t" }
        { trace := [], fs := fsEmpty }
      = (Except.ok (), emit (Event.resolveCall "A/f.csv") { trace := [], fs := fsEmpty }) :=
  (c4_skip_on_resolve_failure envC4 "tok" "A/f.csv" (some "t") []
    { trace := [], fs := fsEmpty } none (by decide) rfl).1

/-- Helper: writing the 8192-byte chunks in order reassembles exactly the
response body. -/
theorem concatBytes_chunks8192 (l : Bytes) : concatBytes (chunks8192 l) = l := by
  by_cases h : l = []
  · subst h
    rw [chunks8192]
    simp [concatBytes]
  · rw [chunks8192, dif_neg h, concatBytes,
      concatBytes_chunks8192 (l.drop 8192), List.take_append_drop]
termination_by l.length
decreasing_by
  have hl : 0 < l.length := List.length_pos.mpr h
  have h2 : (0 : Nat) < 8192 := by norm_num
  simpa using Nat.sub_lt hl h2

/-- Helper: every chunk holds at most 8192 bytes. -/
theorem chunks8192_le (l : Bytes) : ∀ c ∈ chunks8192 l, c.length ≤ 8192 := by
  by_cases h : l = []
  · subst h
    rw [chunks8192]
    simp
  · rw [chunks8192, dif_neg h]
    intro c hc
    rcases List.mem_cons.mp hc with h1 | h2
    · subst h1
      simp [List.length_take]
    · exact chunks8192_le (l.drop 8192) c h2
termination_by l.length
decreasing_by
  have hl : 0 < l.length := List.length_pos.mpr h
  have h2 : (0 : Nat) < 8192 := by norm_num
  simpa using Nat.sub_lt hl h2

/-- C6: on an HTTP 200 fetch response, the local file at the target path
afterwards holds exactly the remote body, assembled from chunks of at most
8192 bytes, any pre-existing content at that path being fully overwritten
while every other path is untouched; and the local path used by the
orchestrator is the last slash-separated segment of the logical file name,
so two remote keys sharing a basename write to the same local path. -/
theorem c6_download_success :
    (∀ (body : Bytes) (ln : String) (fs : FS),
      ∃ fs2, download_file (NetResult.resp 200 body) ln fs = Except.ok fs2 ∧
        fs2 ln = some (concatBytes (chunks8192 body)) ∧
        concatBytes (chunks8192 body) = body ∧
        (∀ c ∈ chunks8192 body, c.length ≤ 8192) ∧
        ∀ p, p ≠ ln → fs2 p = fs p) ∧
    (∀ file_name : String,
      localFilename file_name = (file_name.splitOn "/").getLastD "") ∧
    (∀ (n1 n2 : String), (n1.splitOn "/").getLastD "" = (n2.splitOn "/").getLastD "" →
      localFilename n1 = localFilename n2) := by
  refine ⟨?_, fun _ => rfl, fun n1 n2 h => h⟩
  intro body ln fs
  refine ⟨fun p => if p = ln then some (concatBytes (chunks8192 body)) else fs p,
    rfl, by simp, concatBytes_chunks8192 body, chunks8192_le body, ?_⟩
  intro p hp
  simp [hp]

/-- Witness for C6: a two-byte body lands on disk byte for byte, over a
previously existing file at the same path. -/
theorem c6_download_success_witness :
    ∃ fs2, download_file (NetResult.resp 200 [5, 6]) "report.csv"
        (fun _ => some [9]) = Except.ok fs2 ∧
      fs2 "report.csv" = some [5, 6] ∧ fs2 "other.csv" = some [9] := by
  obtain ⟨fs2, h1, h2, h3, _, h5⟩ :=
    c6_download_success.1 [5, 6] "report.csv" (fun _ => some [9])
  exact ⟨fs2, h1, by rw [h2, h3], by rw [h5 "other.csv" (by decide)]⟩

/-- Helper: a record missing one of the two read keys makes its log line
raise a KeyError. -/
theorem logFileLine_bad (f : FileRecord)
    (h : f.name? = none ∨ f.lastModifiedAtUtc? = none) :
    ∃ k, logFileLine f = Except.error (PyExn.keyError k) := by
  rcases h with h1 | h2
  · exact ⟨"name", by simp [logFileLine, dictGet, h1]⟩
  · cases hn : f.name? with
    | none => exact ⟨"name", by simp [logFileLine, dictGet, hn]⟩
    | some n => exact ⟨"lastModifiedAtUtc", by simp [logFileLine, dictGet, hn, h2]⟩

/-- Helper: a log line either succeeds or raises a KeyError. -/
theorem logFileLine_shape (f : FileRecord) :
    logFileLine f = Except.ok () ∨
    ∃ k, logFileLine f = Except.error (PyExn.keyError k) := by
  cases hn : f.name? with
  | none => exact Or.inr ⟨"name", by simp [logFileLine, dictGet, hn]⟩
  | some n =>
    cases hm : f.lastModifiedAtUtc? with
    | none => exact Or.inr ⟨"lastModifiedAtUtc", by simp [logFileLine, dictGet, hn, hm]⟩
    | some m => exact Or.inl (by simp [logFileLine, dictGet, hn, hm])

/-- Helper: the logging loop raises a KeyError whenever some record lacks
one of the two read keys. -/
theorem logFiles_error_of_bad :
    ∀ (files : List FileRecord),
      (∃ f ∈ files, f.name? = none ∨ f.lastModifiedAtUtc? = none) →
      ∃ k, logFiles files = Except.error (PyExn.keyError k) := by
  intro files
  induction files with
  | nil =>
    rintro ⟨f, hf, _⟩
    simp at hf
  | cons f rest ih =>
    rintro ⟨g, hg, hbad⟩
    rcases List.mem_cons.mp hg with hEq | hMem
    · subst hEq
      obtain ⟨k, hk⟩ := logFileLine_bad g hbad
      exact ⟨k, by simp [logFiles, hk]⟩
    · rcases logFileLine_shape f with hok | ⟨k, herr⟩
      · obtain ⟨k2, hk2⟩ := ih ⟨g, hMem, hbad⟩
        exact ⟨k2, by simp [logFiles, hok, hk2]⟩
      · exact ⟨k, by simp [logFiles, herr]⟩

/-- C9: a 200 listing response with a non-empty results array in which
some record lacks the name or the lastModifiedAtUtc key makes the listing
function raise a KeyError instead of returning records, and when that
listing is the first one of a run the exception propagates to the
top-level handler of the orchestrator, ending the run. -/
theorem c9_keyerror_malformed :
    ∀ (files : List FileRecord), files ≠ [] →
      (∃ f ∈ files, f.name? = none ∨ f.lastModifiedAtUtc? = none) →
      (∀ (tok p c : String) (net : ListRequest → NetResult (Option (List FileRecord))),
        net (listRequest tok p c) = NetResult.resp 200 (some files) →
        ∃ k, ( list_files_in_prefix tok p c net).1 = Except.error (PyExn.keyError k)) ∧
      (∀ (env : Env) (fs0 : FS) (tok : String),
        env.authR = NetResult.resp 200 (some tok) → tok ≠ "" →
        env.listR (listRequest tok PREFIX (startAfterFor "08-10-2024"))
          = NetResult.resp 200 (some files) →
        ∃ k s, mainRun env fs0 = Except.ok (MainResult.caughtError (PyExn.keyError k) s)) := by
  intro files hne hbad
  obtain ⟨k, hk⟩ := logFiles_error_of_bad files hbad
  constructor
  · intro tok p c net hn
    exact ⟨k, by simp [ list_files_in_prefix, hn, hne, hk]⟩
  · intro env fs0 tok hA htok hL
    refine ⟨k,
      { trace := [Event.authCall,
          Event.listCall (listRequest tok PREFIX (startAfterFor "08-10-2024"))],
        fs := fs0 }, ?_⟩
    simp [mainRun, mainBody, emit, authenticate, hA, htok, target_dates,
      processDates, processDate, list_files_in_prefix, hL, hne, hk]

/-- Witness for C9: one record lacking the name key. -/
theorem c9_keyerror_malformed_witness :
    (∃ k, ( list_files_in_prefix "tok" PREFIX (startAfterFor "08-10-2024") envC9.listR).1
        = Except.error (PyExn.keyError k)) ∧
    (∃ k s, mainRun envC9 fsEmpty
        = Except.ok (MainResult.caughtError (PyExn.keyError k) s)) :=
  ⟨(c9_keyerror_malformed [badRec] (by decide) ⟨badRec, by simp, Or.inl rfl⟩).1
      "tok" PREFIX (startAfterFor "08-10-2024") envC9.listR rfl,
   (c9_keyerror_malformed [badRec] (by decide) ⟨badRec, by simp, Or.inl rfl⟩).2
      envC9 fsEmpty "tok" rfl (by decide) rfl⟩

/-- Helper: in an environment raising no transport exception, the per-file
step completes and appends exactly the events of the record. -/
theorem processFile_ok_of (env : Env) (tok : String) (f : FileRecord) (s : St)
    (hn : f.name?.isSome = true)
    (hres : ∀ (n : String) (e : PyExn), env.resolveR n ≠ NetResult.exn e)
    (hfetch : ∀ (u : String) (e : PyExn), env.fetchR u ≠ NetResult.exn e) :
    ∃ fs2, processFile env tok f s
      = (Except.ok (), { trace := s.trace ++ fileEvents env f, fs := fs2 }) := by
  obtain ⟨n, hn2⟩ := Option.isSome_iff_exists.mp hn
  cases hr : env.resolveR n with
  | exn e => exact absurd hr (hres n e)
  | resp rst rb =>
    have hro : ∃ ro, generate_download_url (env.resolveR n) = Except.ok ro := by
      rw [hr]
      by_cases h200 : rst = 200 <;> simp [generate_download_url, h200]
    obtain ⟨ro, hro⟩ := hro
    cases ro with
    | none =>
      exact ⟨s.fs, by simp [processFile, dictGet, hn2, hro, fileEvents, emit]⟩
    | some url =>
      by_cases hu : url = ""
      · subst hu
        exact ⟨s.fs, by simp [processFile, dictGet, hn2, hro, fileEvents, emit]⟩
      · cases hf2 : env.fetchR url with
        | exn e => exact absurd hf2 (hfetch url e)
        | resp st2 b2 =>
          by_cases h200 : st2 = 200
          · refine ⟨fun p => if p = localFilename n
                then some (concatBytes (chunks8192 b2)) else s.fs p, ?_⟩
            simp [processFile, dictGet, hn2, hro, hu, emit, download_file,
              hf2, h200, fileEvents]
          · refine ⟨s.fs, ?_⟩
            simp [processFile, dictGet, hn2, hro, hu, emit, download_file,
              hf2, h200, fileEvents]

/-- Helper: the per-file loop over well-formed records completes and
appends exactly the concatenated events of the records. -/
theorem processFiles_ok_of (env : Env) (tok : String)
    (hres : ∀ (n : String) (e : PyExn), env.resolveR n ≠ NetResult.exn e)
    (hfetch : ∀ (u : String) (e : PyExn), env.fetchR u ≠ NetResult.exn e) :
    ∀ (files : List FileRecord) (s : St), (∀ f ∈ files, wellFormedRec f) →
      ∃ fs2, processFiles env tok files s
        = (Except.ok (), { trace := s.trace ++ flatEvents env files, fs := fs2 }) := by
  intro files
  induction files with
  | nil =>
    intro s _
    exact ⟨s.fs, by simp [processFiles, flatEvents]⟩
  | cons f rest ih =>
    intro s hwf
    obtain ⟨fsA, hA⟩ := processFile_ok_of env tok f s (hwf f (by simp)).1 hres hfetch
    obtain ⟨fsB, hB⟩ := ih { trace := s.trace ++ fileEvents env f, fs := fsA }
      (fun g hg => hwf g (by simp [hg]))
    refine ⟨fsB, ?_⟩
    simp [processFiles, hA, hB, flatEvents, List.append_assoc]

/-- Helper: a date whose listing answers 200 with well-formed records
completes, appending its listing request and the events of its records. -/
theorem processDate_ok_of (env : Env) (tok d : String) (files : List FileRecord) (s : St)
    (hres : ∀ (n : String) (e : PyExn), env.resolveR n ≠ NetResult.exn e)
    (hfetch : ∀ (u : String) (e : PyExn), env.fetchR u ≠ NetResult.exn e)
    (hL : env.listR (listRequest tok PREFIX (startAfterFor d))
      = NetResult.resp 200 (some files))
    (hwf : ∀ f ∈ files, wellFormedRec f) :
    ∃ fs2, processDate env tok d s
      = (Except.ok (), { trace := s.trace ++
          (Event.listCall (listRequest tok PREFIX (startAfterFor d))
            :: flatEvents env files), fs := fs2 }) := by
  obtain ⟨fs2, h2⟩ := processFiles_ok_of env tok hres hfetch files
    { s with trace := s.trace ++ [Event.listCall (listRequest tok PREFIX (startAfterFor d))] }
    hwf
  refine ⟨fs2, ?_⟩
  simp [processDate, list_ok_of tok PREFIX (startAfterFor d) env.listR files hL hwf,
    h2, List.append_assoc]

/-- Helper: the loop over the dates completes, appending exactly the
per-date events in order. -/
theorem processDates_ok_of (env : Env) (tok : String)
    (filesOf : String → List FileRecord)
    (hres : ∀ (n : String) (e : PyExn), env.resolveR n ≠ NetResult.exn e)
    (hfetch : ∀ (u : String) (e : PyExn), env.fetchR u ≠ NetResult.exn e) :
    ∀ (ds : List String) (s : St),
      (∀ d ∈ ds, env.listR (listRequest tok PREFIX (startAfterFor d))
        = NetResult.resp 200 (some (filesOf d))) →
      (∀ d ∈ ds, ∀ f ∈ filesOf d, wellFormedRec f) →
      ∃ fs2, processDates env tok ds s
        = (Except.ok (),
            { trace := s.trace ++ datesEvents env tok filesOf ds,
              fs := fs2 }) := by
  intro ds
  induction ds with
  | nil =>
    intro s _ _
    exact ⟨s.fs, by simp [processDates, datesEvents]⟩
  | cons d rest ih =>
    intro s hL hwf
    obtain ⟨fsA, hA⟩ := processDate_ok_of env tok d (filesOf d) s hres hfetch
      (hL d (by simp)) (hwf d (by simp))
    obtain ⟨fsB, hB⟩ := ih
      { trace := s.trace ++ (Event.listCall (listRequest tok PREFIX (startAfterFor d))
          :: flatEvents env (filesOf d)), fs := fsA }
      (fun g hg => hL g (by simp [hg])) (fun g hg => hwf g (by simp [hg]))
    refine ⟨fsB, ?_⟩
    simp [processDates, hA, hB, datesEvents, List.append_assoc]

/-- Helper: listCallsOf distributes over append. -/
theorem listCallsOf_append (a b : List Event) :
    listCallsOf (a ++ b) = listCallsOf a ++ listCallsOf b := by
  induction a with
  | nil => simp [listCallsOf]
  | cons e t ih => cases e <;> simp [listCallsOf, ih]

/-- Helper: fetchCount distributes over append. -/
theorem fetchCount_append (a b : List Event) :
    fetchCount (a ++ b) = fetchCount a + fetchCount b := by
  induction a with
  | nil => simp [fetchCount]
  | cons e t ih => cases e <;> simp [fetchCount, ih, Nat.add_assoc]

/-- Helper: the events of one record contain no listing request. -/
theorem listCallsOf_fileEvents (env : Env) (f : FileRecord) :
    listCallsOf (fileEvents env f) = [] := by
  cases hn : f.name? with
  | none => simp [fileEvents, hn, listCallsOf]
  | some n =>
    cases hg : generate_download_url (env.resolveR n) with
    | error e => simp [fileEvents, hn, hg, listCallsOf]
    | ok ro =>
      cases ro with
      | none => simp [fileEvents, hn, hg, listCallsOf]
      | some url => by_cases hu : url = "" <;> simp [fileEvents, hn, hg, hu, listCallsOf]

/-- Helper: the events of one record hold one fetch request exactly when
its resolution is truthy. -/
theorem fetchCount_fileEvents (env : Env) (f : FileRecord) :
    fetchCount (fileEvents env f) = if resolveTruthy env f then 1 else 0 := by
  cases hn : f.name? with
  | none => simp [fileEvents, hn, resolveTruthy, fetchCount]
  | some n =>
    cases hg : generate_download_url (env.resolveR n) with
    | error e => simp [fileEvents, hn, hg, resolveTruthy, fetchCount]
    | ok ro =>
      cases ro with
      | none => simp [fileEvents, hn, hg, resolveTruthy, fetchCount, truthyStr]
      | some url =>
        by_cases hu : url = "" <;>
          simp [fileEvents, hn, hg, hu, resolveTruthy, fetchCount, truthyStr]

/-- Helper: the events of a record list contain no listing request. -/
theorem listCallsOf_flatEvents (env : Env) (files : List FileRecord) :
    listCallsOf (flatEvents env files) = [] := by
  induction files with
  | nil => simp [flatEvents, listCallsOf]
  | cons f rest ih => simp [flatEvents, listCallsOf_append, listCallsOf_fileEvents, ih]

/-- Helper: the fetch requests of a record list count its truthy
resolutions. -/
theorem fetchCount_flatEvents (env : Env) (files : List FileRecord) :
    fetchCount (flatEvents env files) = countResolved env files := by
  induction files with
  | nil => simp [flatEvents, fetchCount, countResolved]
  | cons f rest ih =>
    simp [flatEvents, fetchCount_append, fetchCount_fileEvents, ih, countResolved]

/-- Helper: the listing requests of the per-date events are exactly one
request per date, in order. -/
theorem listCallsOf_datesEvents (env : Env) (tok : String)
    (filesOf : String → List FileRecord) (ds : List String) :
    listCallsOf (datesEvents env tok filesOf ds)
      = ds.map (fun d => listRequest tok PREFIX (startAfterFor d)) := by
  induction ds with
  | nil => simp [datesEvents, listCallsOf]
  | cons d rest ih =>
    simp [datesEvents, listCallsOf, listCallsOf_append, listCallsOf_flatEvents, ih]

/-- Helper: the fetch requests over the dates count the truthy resolutions
of all listed records. -/
theorem fetchCount_datesEvents (env : Env) (tok : String)
    (filesOf : String → List FileRecord) (ds : List String) :
    fetchCount (datesEvents env tok filesOf ds)
      = countResolvedDates env filesOf ds := by
  induction ds with
  | nil => simp [datesEvents, fetchCount, countResolvedDates]
  | cons d rest ih =>
    simp [datesEvents, fetchCount, fetchCount_append, fetchCount_flatEvents, ih,
      countResolvedDates]

/-- C7: in a run whose authentication yields a truthy token and whose
listings answer 200 with well-formed records, the orchestrator completes,
its listing requests are exactly one per target date in the hardcoded
order, each with cursor startAfterFor of the date, a date listing zero
records contributing no further request and no error, and the number of
fetch requests equals the number of listed records whose URL resolution
yielded a truthy URL. -/
theorem c7_orchestration :
    ∀ (env : Env) (fs0 : FS) (tok : String) (filesOf : String → List FileRecord),
      env.authR = NetResult.resp 200 (some tok) → tok ≠ "" →
      (∀ d ∈ target_dates,
        env.listR (listRequest tok PREFIX (startAfterFor d))
          = NetResult.resp 200 (some (filesOf d))) →
      (∀ d ∈ target_dates, ∀ f ∈ filesOf d, wellFormedRec f) →
      (∀ (n : String) (e : PyExn), env.resolveR n ≠ NetResult.exn e) →
      (∀ (u : String) (e : PyExn), env.fetchR u ≠ NetResult.exn e) →
      ∃ s : St, mainRun env fs0 = Except.ok (MainResult.completed s) ∧
        s.trace = Event.authCall :: datesEvents env tok filesOf target_dates ∧
        listCallsOf s.trace
          = target_dates.map (fun d => listRequest tok PREFIX (startAfterFor d)) ∧
        fetchCount s.trace = countResolvedDates env filesOf target_dates ∧
        target_dates = ["08-10-2024", "08-11-2024", "08-12-2024"] := by
  intro env fs0 tok filesOf hA htok hL hwf hres hfetch
  obtain ⟨fs2, hD⟩ := processDates_ok_of env tok filesOf hres hfetch target_dates
    { trace := [Event.authCall], fs := fs0 } hL hwf
  refine ⟨{ trace := Event.authCall :: datesEvents env tok filesOf target_dates,
            fs := fs2 },
    ?_, rfl, ?_, ?_, rfl⟩
  · simp [mainRun, mainBody, emit, authenticate, hA, htok, hD]
  · have h0 : listCallsOf (Event.authCall :: datesEvents env tok filesOf target_dates)
        = listCallsOf (datesEvents env tok filesOf target_dates) := rfl
    rw [h0, listCallsOf_datesEvents]
  · have h0 : fetchCount (Event.authCall :: datesEvents env tok filesOf target_dates)
        = fetchCount (datesEvents env tok filesOf target_dates) := rfl
    rw [h0, fetchCount_datesEvents]

/-- Witness for C7: the end-to-end scenario with two records on the first
date and none on the others makes exactly two fetch requests. -/
theorem c7_orchestration_witness :
    (∃ s : St, mainRun envC7 fsEmpty = Except.ok (MainResult.completed s) ∧
      s.trace = Event.authCall :: datesEvents envC7 "tok" filesOfC7 target_dates ∧
      listCallsOf s.trace
        = target_dates.map (fun d => listRequest "tok" PREFIX (startAfterFor d)) ∧
      fetchCount s.trace = countResolvedDates envC7 filesOfC7 target_dates ∧
      target_dates = ["08-10-2024", "08-11-2024", "08-12-2024"]) ∧
    countResolvedDates envC7 filesOfC7 target_dates = 2 :=
  ⟨c7_orchestration envC7 fsEmpty "tok" filesOfC7 rfl (by decide)
      (by decide) (by decide)
      (fun n e h => NetResult.noConfusion h)
      (fun u e h => NetResult.noConfusion h),
   by decide⟩
